import Mathlib

/-!
Shallow embedding of the libp2p hole-punch initiator
(`p2p/protocol/holepunch`: the `holePuncher` coordinator, its dedup
admission, retry loop, rendezvous exchange and shutdown), together with
proofs of the specification claims about it.

External effects (stream I/O, timers, the dialer, the clock) are supplied
through explicit oracle records, so every Go control path corresponds to a
computable Lean function of the oracle, and the observable side effects
(messages written, tracer calls, sleeps) are returned as explicit event
traces in program order.
-/

namespace Holepunch

/-- Peer identifiers (`peer.ID`). -/
abbrev PeerID := String

/-- Modelled from the spec: a multiaddress is abstracted to its identity
plus the two predicates the hole puncher consults on it
(`isRelayAddress`, `manet.IsPublicAddr`); multiaddr parsing itself lives
outside the embedded core. -/
structure Addr where
  text : String
  isRelay : Bool
  isPublic : Bool
deriving DecidableEq

/-- Modelled from the spec: `removeRelayAddrs` strips relay-routed
addresses from a candidate set. -/
def removeRelayAddrs (addrs : List Addr) : List Addr :=
  addrs.filter (fun a => !a.isRelay)

/-- The `AddrFilter` collaborator: pure local/remote filtering keyed by the
remote peer's identity. -/
structure AddrFilter where
  filterLocal : PeerID → List Addr → List Addr
  filterRemote : PeerID → List Addr → List Addr

/-- Message kinds of the wire protocol (`pb.HolePunch_CONNECT`,
`pb.HolePunch_SYNC`). -/
inductive MsgType
  | CONNECT
  | SYNC
deriving DecidableEq

/-- A wire message (`pb.HolePunch`): a kind plus the observed addresses
(empty for SYNC). -/
structure HolePunchMsg where
  msgType : MsgType
  obsAddrs : List Addr
deriving DecidableEq

/-- The configuration of a `holePuncher` captured at construction that the
embedded code paths read: the listen-address snapshot source, the optional
address filter, and the `legacyBehavior` role flag. -/
structure HolePuncherConfig where
  listenAddrs : List Addr
  filter : Option AddrFilter
  legacyBehavior : Bool

/-- The `newHolePuncher` constructor: records the listen-address source and
the filter, and sets `legacyBehavior := true`. -/
def newHolePuncher (listenAddrs : List Addr) (filter : Option AddrFilter) :
    HolePuncherConfig :=
  { listenAddrs := listenAddrs, filter := filter, legacyBehavior := true }

/-- Failure modes of `initiateHolePunchImpl`, one constructor per `return`
site carrying an error in the source. -/
inductive ExchError
  | serviceAttach (msg : String)
  | memoryReserve (msg : String)
  | noLocalPublicAddr
  | writeConnectFailed (msg : String)
  | readFailed (msg : String)
  | unexpectedMsgType (t : MsgType)
  | noRemotePublicAddr
  | writeSyncFailed (msg : String)
deriving DecidableEq

/-- Local candidate set offered in CONNECT: the listen-address snapshot
with relay addresses stripped, then `FilterLocal` when a filter is
configured (`initiateHolePunchImpl`, lines 301-304). -/
def localCandidates (hp : HolePuncherConfig) (rp : PeerID) : List Addr :=
  let obsAddrs := removeRelayAddrs hp.listenAddrs
  match hp.filter with
  | some f => f.filterLocal rp obsAddrs
  | none => obsAddrs

/-- Remote candidate set accepted from the peer's CONNECT: the received
addresses with relay addresses stripped, then `FilterRemote`
(`initiateHolePunchImpl`, lines 329-332). -/
def remoteCandidates (hp : HolePuncherConfig) (rp : PeerID)
    (received : List Addr) : List Addr :=
  let addrs := removeRelayAddrs received
  match hp.filter with
  | some f => f.filterRemote rp addrs
  | none => addrs

/-- Oracle for everything `initiateHolePunchImpl` asks of the stream and
its scope: the outcomes of `SetService`, `ReserveMemory`, the two writes
and the one read, the clock readings taken when CONNECT is sent and when
the reply is received, and the remote peer of the underlying connection. -/
structure StreamOracle where
  setServiceErr : Option String
  reserveErr : Option String
  writeConnectErr : Option String
  readResult : Except String HolePunchMsg
  writeSyncErr : Option String
  sendTime : Nat
  recvTime : Nat
  remotePeer : PeerID

/-- Observable I/O events of one exchange, in program order: messages
handed to the delimited writer, the message returned by the reader, and
the point at which the RTT measurement is taken. -/
inductive ExchEvent
  | sentMsg (m : HolePunchMsg)
  | readMsg (m : HolePunchMsg)
  | rttStopped (rtt : Nat)
deriving DecidableEq

/-- The body of `initiateHolePunchImpl` (lines 285-342): returns the
filtered remote candidates, the filtered local candidates actually
offered, and the measured RTT, together with the trace of I/O events,
mirroring the source's statement order (RTT is taken on receipt, before
the message kind is checked). -/
def initiateHolePunchImpl (hp : HolePuncherConfig) (o : StreamOracle) :
    Except ExchError (List Addr × List Addr × Nat) × List ExchEvent :=
  match o.setServiceErr with
  | some e => (.error (.serviceAttach e), [])
  | none =>
    match o.reserveErr with
    | some e => (.error (.memoryReserve e), [])
    | none =>
      let obsAddrs := localCandidates hp o.remotePeer
      if obsAddrs.isEmpty then
        (.error .noLocalPublicAddr, [])
      else
        let connectMsg : HolePunchMsg := ⟨.CONNECT, obsAddrs⟩
        match o.writeConnectErr with
        | some e => (.error (.writeConnectFailed e), [.sentMsg connectMsg])
        | none =>
          match o.readResult with
          | .error e => (.error (.readFailed e), [.sentMsg connectMsg])
          | .ok msg =>
            let rtt := o.recvTime - o.sendTime
            let evs : List ExchEvent :=
              [.sentMsg connectMsg, .readMsg msg, .rttStopped rtt]
            if msg.msgType = .CONNECT then
              let addrs := remoteCandidates hp o.remotePeer msg.obsAddrs
              if addrs.isEmpty then
                (.error .noRemotePublicAddr, evs)
              else
                match o.writeSyncErr with
                | some e =>
                  (.error (.writeSyncFailed e), evs ++ [.sentMsg ⟨.SYNC, []⟩])
                | none =>
                  (.ok (addrs, obsAddrs, rtt), evs ++ [.sentMsg ⟨.SYNC, []⟩])
            else
              (.error (.unexpectedMsgType msg.msgType), evs)

/-- The retry bound (`const maxRetries = 3`). -/
def maxRetries : Nat := 3

/-- One retry iteration's oracle: the outcome of that iteration's
`initiateHolePunch` call, whether the coordinator context is done before
the half-RTT timer fires, and the outcome of `holePunchConnect`. -/
structure IterOracle where
  exchange : Except ExchError (List Addr × List Addr × Nat)
  ctxDoneDuringSleep : Bool
  connectErr : Option String

/-- Errors `DirectConnect` can return: `ErrClosed` (modelled from the
spec: declared in a file outside the excerpt), `ErrHolePunchActive`, an
error propagated from the rendezvous exchange, the coordinator context's
cancellation error, and the final aggregate failure. -/
inductive DCError
  | closed
  | alreadyActive
  | exchange (e : ExchError)
  | ctxCancelled
  | allRetriesFailed (msg : String)
deriving DecidableEq

/-- Observable events of the retry loop, in program order: the start of
iteration `i`'s rendezvous exchange, the tracer calls, the pre-connect
sleep, and the `holePunchConnect` call with its role flag. -/
inductive LoopEvent
  | exchangeAttempt (i : Nat)
  | protocolError (e : ExchError)
  | sleep (d : Nat)
  | startHolePunch (addrs : List Addr) (rtt : Nat)
  | holePunchAttempt (p : PeerID)
  | connect (isClient : Bool)
  | endHolePunch (err : Option String)
  | finished (side : String) (attempts : Nat) (addrs obsAddrs : List Addr)
      (success : Bool)
deriving DecidableEq

/-- The aggregate failure text built by the loop's final
`fmt.Errorf("all retries for hole punch with peer %s failed", rp)`. -/
def allRetriesFailedMsg (rp : PeerID) : String :=
  "all retries for hole punch with peer " ++ rp ++ " failed"

/-- The hole-punch retry loop of `directConnect`
(`for i := 1; i <= maxRetries; i++`, lines 219-261), written as recursion
over the list of remaining iteration indices. Each iteration: run the
exchange (abort the loop with its error on failure), sleep `rtt / 2`
racing the coordinator context, run `holePunchConnect` with the role
chosen by `legacyBehavior`, return success immediately on a nil error,
and emit the tracer's finished event after the last failed iteration. -/
def runIters (cfg : HolePuncherConfig) (rp : PeerID)
    (oracles : Nat → IterOracle) : List Nat → Option DCError × List LoopEvent
  | [] => (some (.allRetriesFailed (allRetriesFailedMsg rp)), [])
  | i :: rest =>
    let o := oracles i
    match o.exchange with
    | .error e => (some (.exchange e), [.exchangeAttempt i, .protocolError e])
    | .ok (addrs, obsAddrs, rtt) =>
      if o.ctxDoneDuringSleep then
        (some .ctxCancelled, [.exchangeAttempt i])
      else
        let isClient := if cfg.legacyBehavior then false else true
        let iterEvs : List LoopEvent :=
          [.exchangeAttempt i, .sleep (rtt / 2), .startHolePunch addrs rtt,
           .holePunchAttempt rp, .connect isClient, .endHolePunch o.connectErr]
        match o.connectErr with
        | none => (none, iterEvs ++ [.finished "initiator" i addrs obsAddrs true])
        | some _ =>
          let next := runIters cfg rp oracles rest
          if i = maxRetries then
            (next.1,
             (iterEvs ++ [.finished "initiator" maxRetries addrs obsAddrs false])
               ++ next.2)
          else
            (next.1, iterEvs ++ next.2)

/-- The full retry loop as entered by `directConnect`: iterations
`1 .. maxRetries`. -/
def holePunchLoop (cfg : HolePuncherConfig) (rp : PeerID)
    (oracles : Nat → IterOracle) : Option DCError × List LoopEvent :=
  runIters cfg rp oracles (List.range' 1 maxRetries)

/-- The iteration indices at which the loop actually started a rendezvous
exchange, in order. -/
def exchangeAttemptsOf (evs : List LoopEvent) : List Nat :=
  evs.filterMap (fun e =>
    match e with
    | LoopEvent.exchangeAttempt i => some i
    | _ => none)

/-- Oracle for the phases of `directConnect` before the retry loop:
whether `getDirectConnection` already finds a direct connection, the
peerstore addresses scanned for a public non-relay address, and the
outcome of the forced direct dial when one is attempted. -/
structure DirectDialOracle where
  alreadyDirect : Bool
  peerstoreAddrs : List Addr
  dialErr : Option String

/-- The body of `directConnect` (lines 185-262): short-circuit on an
existing direct connection, then one opportunistic direct dial gated on
the first public non-relay peerstore address (a failed dial `break`s to
hole punching), then the retry loop. -/
def directConnect (cfg : HolePuncherConfig) (rp : PeerID)
    (ddo : DirectDialOracle) (oracles : Nat → IterOracle) :
    Option DCError × List LoopEvent :=
  if ddo.alreadyDirect then (none, [])
  else
    match ddo.peerstoreAddrs.find? (fun a => !a.isRelay && a.isPublic) with
    | some _ =>
      match ddo.dialErr with
      | none => (none, [])
      | some _ => holePunchLoop cfg rp oracles
    | none => holePunchLoop cfg rp oracles

/-- A `DirectDialOracle` that leads straight to the hole-punch loop: no
existing direct connection and no public address in the peerstore. -/
def noDirectDial : DirectDialOracle :=
  { alreadyDirect := false, peerstoreAddrs := [], dialErr := none }

/-- The dedup-relevant state of the coordinator: the `closed` flag and the
`active` set, kept as a duplicate-free list of peer ids. -/
structure CoordState where
  closed : Bool
  active : List PeerID
deriving DecidableEq

/-- `beginDirectConnect` (lines 150-165): fail with `ErrClosed` when
closed, with `ErrHolePunchActive` when the peer is already active, else
insert the peer into the active set. The source performs the whole check
under `closeMx`/`activeMx`; the embedding is one atomic transition. -/
def beginDirectConnect (s : CoordState) (p : PeerID) :
    Option DCError × CoordState :=
  if s.closed then (some .closed, s)
  else if p ∈ s.active then (some .alreadyActive, s)
  else (none, { s with active := p :: s.active })

/-- `DirectConnect` (lines 170-183): admission via `beginDirectConnect`,
then `directConnect`, with the deferred removal of the peer from the
active set on every exit path of the body. -/
def DirectConnect (s : CoordState) (cfg : HolePuncherConfig) (p : PeerID)
    (ddo : DirectDialOracle) (oracles : Nat → IterOracle) :
    Option DCError × CoordState × List LoopEvent :=
  match beginDirectConnect s p with
  | (some err, s1) => (some err, s1, [])
  | (none, s1) =>
    let body := directConnect cfg p ddo oracles
    (body.1, { s1 with active := s1.active.filter (fun q => q ≠ p) }, body.2)

/-- Shutdown-relevant state shared between `Close` and the tasks spawned
by `netNotifiee.Connected`: the `closed` flag, the coordinator context's
cancellation flag, and the `refCount` wait-group counter. -/
structure SysState where
  closed : Bool
  cancelled : Bool
  refCount : Nat
deriving DecidableEq

/-- The state a fresh `holePuncher` starts in. -/
def initSysState : SysState := ⟨false, false, 0⟩

/-- The body of `Close` (lines 344-351): set `closed` under the write
lock, fire the coordinator-wide cancellation, and return `nil`; the
`refCount.Wait()` before the return is modelled by the guard of
`SysEvent.closeRet` below. -/
def Close (s : SysState) : Option DCError × SysState :=
  (none, { s with closed := true, cancelled := true })

/-- Interleaving events of the shutdown protocol: a `Connected` handler
spawning a tracked task (`refCount.Add(1)`), a task finishing
(`refCount.Done()`), the body of `Close` running, and `Close` returning
after `refCount.Wait()`. -/
inductive SysEvent
  | spawnTask
  | finishTask
  | closeCall
  | closeRet
deriving DecidableEq

/-- Guard of each event: `finishTask` needs an outstanding task, and
`closeRet` (the return from `refCount.Wait()`) needs `Close` to have run
and the counter to have drained. -/
def sysGuard (s : SysState) : SysEvent → Bool
  | .spawnTask => true
  | .finishTask => decide (0 < s.refCount)
  | .closeCall => true
  | .closeRet => s.closed && decide (s.refCount = 0)

/-- Effect of each event on the shared state. -/
def sysStep (s : SysState) : SysEvent → SysState
  | .spawnTask => { s with refCount := s.refCount + 1 }
  | .finishTask => { s with refCount := s.refCount - 1 }
  | .closeCall => { s with closed := true, cancelled := true }
  | .closeRet => s

/-- Run a sequence of events, failing when an event's guard does not
hold. -/
def sysRun : SysState → List SysEvent → Option SysState
  | s, [] => some s
  | s, e :: es => if sysGuard s e then sysRun (sysStep s e) es else none

/-- Number of occurrences of one event in a trace. -/
def countEv (e : SysEvent) : List SysEvent → Nat
  | [] => 0
  | x :: xs => (if x = e then 1 else 0) + countEv e xs

/-- Unfolding lemma: an iteration whose exchange fails aborts the loop
with that error after tracing it. -/
theorem runIters_exchange_error (cfg : HolePuncherConfig) (rp : PeerID)
    (oracles : Nat → IterOracle) (i : Nat) (rest : List Nat) (e : ExchError)
    (hx : (oracles i).exchange = .error e) :
    runIters cfg rp oracles (i :: rest) =
      (some (.exchange e), [.exchangeAttempt i, .protocolError e]) := by
  simp [runIters, hx]

/-- Unfolding lemma: an iteration whose sleep is pre-empted by the
coordinator context returns the context's error at once. -/
theorem runIters_cancelled (cfg : HolePuncherConfig) (rp : PeerID)
    (oracles : Nat → IterOracle) (i : Nat) (rest : List Nat)
    (a b : List Addr) (rtt : Nat)
    (hx : (oracles i).exchange = .ok (a, b, rtt))
    (hc : (oracles i).ctxDoneDuringSleep = true) :
    runIters cfg rp oracles (i :: rest) =
      (some .ctxCancelled, [.exchangeAttempt i]) := by
  simp [runIters, hx, hc]

/-- Unfolding lemma: an iteration whose connect succeeds returns nil with
the finished event carrying this iteration's number. -/
theorem runIters_connect_ok (cfg : HolePuncherConfig) (rp : PeerID)
    (oracles : Nat → IterOracle) (i : Nat) (rest : List Nat)
    (a b : List Addr) (rtt : Nat)
    (hx : (oracles i).exchange = .ok (a, b, rtt))
    (hc : (oracles i).ctxDoneDuringSleep = false)
    (hce : (oracles i).connectErr = none) :
    runIters cfg rp oracles (i :: rest) =
      (none,
       [.exchangeAttempt i, .sleep (rtt / 2), .startHolePunch a rtt,
        .holePunchAttempt rp,
        .connect (if cfg.legacyBehavior then false else true),
        .endHolePunch none, .finished "initiator" i a b true]) := by
  simp [runIters, hx, hc, hce]

/-- Unfolding lemma: a non-final iteration whose connect fails continues
with the next iteration. -/
theorem runIters_connect_fail_mid (cfg : HolePuncherConfig) (rp : PeerID)
    (oracles : Nat → IterOracle) (i : Nat) (rest : List Nat)
    (a b : List Addr) (rtt : Nat) (ce : String)
    (hx : (oracles i).exchange = .ok (a, b, rtt))
    (hc : (oracles i).ctxDoneDuringSleep = false)
    (hce : (oracles i).connectErr = some ce)
    (hi : i ≠ maxRetries) :
    runIters cfg rp oracles (i :: rest) =
      ((runIters cfg rp oracles rest).1,
       [.exchangeAttempt i, .sleep (rtt / 2), .startHolePunch a rtt,
        .holePunchAttempt rp,
        .connect (if cfg.legacyBehavior then false else true),
        .endHolePunch (some ce)] ++ (runIters cfg rp oracles rest).2) := by
  simp [runIters, hx, hc, hce, hi]

/-- Unfolding lemma: the final iteration whose connect fails emits the
finished event with attempt count `maxRetries` before the loop exits. -/
theorem runIters_connect_fail_last (cfg : HolePuncherConfig) (rp : PeerID)
    (oracles : Nat → IterOracle) (rest : List Nat)
    (a b : List Addr) (rtt : Nat) (ce : String)
    (hx : (oracles maxRetries).exchange = .ok (a, b, rtt))
    (hc : (oracles maxRetries).ctxDoneDuringSleep = false)
    (hce : (oracles maxRetries).connectErr = some ce) :
    runIters cfg rp oracles (maxRetries :: rest) =
      ((runIters cfg rp oracles rest).1,
       ([.exchangeAttempt maxRetries, .sleep (rtt / 2), .startHolePunch a rtt,
         .holePunchAttempt rp,
         .connect (if cfg.legacyBehavior then false else true),
         .endHolePunch (some ce),
         .finished "initiator" maxRetries a b false])
         ++ (runIters cfg rp oracles rest).2) := by
  simp [runIters, hx, hc, hce]

/-- Shape of one iteration that reaches the connect attempt: the events
start with the exchange, the half-RTT sleep and the connect with the role
chosen by `legacyBehavior`. -/
theorem runIters_shape (cfg : HolePuncherConfig) (rp : PeerID)
    (oracles : Nat → IterOracle) (i : Nat) (rest : List Nat)
    (a b : List Addr) (rtt : Nat)
    (hx : (oracles i).exchange = .ok (a, b, rtt))
    (hc : (oracles i).ctxDoneDuringSleep = false) :
    ∃ tail, (runIters cfg rp oracles (i :: rest)).2 =
      LoopEvent.exchangeAttempt i :: LoopEvent.sleep (rtt / 2) ::
        LoopEvent.startHolePunch a rtt :: LoopEvent.holePunchAttempt rp ::
        LoopEvent.connect (if cfg.legacyBehavior then false else true) ::
        LoopEvent.endHolePunch ((oracles i).connectErr) :: tail := by
  cases hce : (oracles i).connectErr with
  | none =>
    exact ⟨[.finished "initiator" i a b true], by simp [runIters, hx, hc, hce]⟩
  | some ce =>
    by_cases hi : i = maxRetries
    · subst hi
      exact ⟨LoopEvent.finished "initiator" maxRetries a b false ::
               (runIters cfg rp oracles rest).2,
             by simp [runIters_connect_fail_last cfg rp oracles rest a b rtt ce hx hc hce]⟩
    · exact ⟨(runIters cfg rp oracles rest).2,
             by simp [runIters_connect_fail_mid cfg rp oracles i rest a b rtt ce hx hc hce hi]⟩

/-- With `noDirectDial`, `directConnect` is exactly the retry loop. -/
theorem directConnect_noDial (cfg : HolePuncherConfig) (rp : PeerID)
    (oracles : Nat → IterOracle) :
    directConnect cfg rp noDirectDial oracles = holePunchLoop cfg rp oracles := by
  simp [directConnect, noDirectDial]

/-- An admitted `DirectConnect` returns the result of `directConnect`. -/
theorem DirectConnect_admitted_result (s : CoordState)
    (cfg : HolePuncherConfig) (p : PeerID) (ddo : DirectDialOracle)
    (oracles : Nat → IterOracle)
    (hclosed : s.closed = false) (hmem : p ∉ s.active) :
    (DirectConnect s cfg p ddo oracles).1 =
      (directConnect cfg p ddo oracles).1 := by
  simp [DirectConnect, beginDirectConnect, hclosed, hmem]

/-- Running a concatenated trace is running the pieces in sequence. -/
theorem sysRun_append (t1 t2 : List SysEvent) :
    ∀ s : SysState,
      sysRun s (t1 ++ t2) =
        Option.bind (sysRun s t1) (fun s1 => sysRun s1 t2) := by
  induction t1 with
  | nil =>
    intro s
    rfl
  | cons e es ih =>
    intro s
    by_cases hg : sysGuard s e = true
    · simp [sysRun, hg, ih]
    · simp [sysRun, hg]

/-- Counter invariant: along any guarded run, the wait-group counter is
the initial counter plus spawns minus finishes. -/
theorem sysRun_refCount (tr : List SysEvent) :
    ∀ s0 s : SysState, sysRun s0 tr = some s →
      s.refCount + countEv SysEvent.finishTask tr =
        s0.refCount + countEv SysEvent.spawnTask tr := by
  induction tr with
  | nil =>
    intro s0 s h
    simp [sysRun] at h
    subst h
    simp [countEv]
  | cons e es ih =>
    intro s0 s h
    simp only [sysRun] at h
    by_cases hg : sysGuard s0 e = true
    · rw [if_pos hg] at h
      have ih2 := ih (sysStep s0 e) s h
      cases e with
      | spawnTask =>
        simp [sysStep] at ih2
        simp [countEv]
        omega
      | finishTask =>
        have hpos : 0 < s0.refCount := by simpa [sysGuard] using hg
        simp [sysStep] at ih2
        simp [countEv]
        omega
      | closeCall =>
        simp [sysStep] at ih2
        simp [countEv]
        omega
      | closeRet =>
        simp [sysStep] at ih2
        simp [countEv]
        omega
    · rw [if_neg hg] at h
      exact absurd h (by simp)

/-- Deleting a peer that is not a member leaves the active list intact. -/
theorem filter_ne_of_not_mem (l : List PeerID) (p : PeerID) (h : p ∉ l) :
    l.filter (fun q => q ≠ p) = l := by
  rw [List.filter_eq_self]
  intro a ha
  have hne : a ≠ p := fun heq => h (heq ▸ ha)
  simpa using hne

/-- A concrete public (non-relay) address. -/
def pubAddr : Addr := ⟨"public-1", false, true⟩

/-- A concrete relay-routed address. -/
def relayAddr : Addr := ⟨"relay-1", true, false⟩

/-- A concrete configuration with one public listen address, no filter,
and the default legacy role behavior. -/
def cfgA : HolePuncherConfig := ⟨[pubAddr], none, true⟩

/-- A concrete configuration with only a relay listen address. -/
def cfgRelayOnly : HolePuncherConfig := ⟨[relayAddr], none, true⟩

/-- A concrete configuration with the legacy role behavior turned off. -/
def cfgNonLegacy : HolePuncherConfig := ⟨[pubAddr], none, false⟩

/-- An iteration whose exchange succeeds and whose connect fails. -/
def okFailIter : IterOracle :=
  ⟨Except.ok ([pubAddr], [pubAddr], 10), false, some "dial timeout"⟩

/-- Every iteration's exchange succeeds and every connect fails. -/
def oraclesAllFail : Nat → IterOracle := fun _ => okFailIter

/-- Iteration 2's exchange fails; the others connect-fail. -/
def oraclesErrAt2 : Nat → IterOracle := fun j =>
  if j = 2 then ⟨Except.error (ExchError.readFailed "stream reset"), false, none⟩
  else okFailIter

/-- Every iteration is pre-empted by the coordinator context mid-sleep. -/
def oraclesCancelled : Nat → IterOracle := fun _ =>
  ⟨Except.ok ([pubAddr], [pubAddr], 10), true, none⟩

/-- Every iteration measures a zero RTT and its connect succeeds. -/
def oraclesZeroRtt : Nat → IterOracle := fun _ =>
  ⟨Except.ok ([pubAddr], [pubAddr], 0), false, none⟩

/-- C1: the coordinator's active set contains `p` for exactly the duration
of one admitted `DirectConnect p` call: admission atomically inserts `p`,
a second concurrent admission while the first is in flight is rejected
with `ErrHolePunchActive` without touching the state, the peer is removed
on every exit path of the body (any dial and loop oracle), and after the
admitted call returns `p` is absent and the rest of the set is
undisturbed. -/
theorem activeAttempts_exact_lifetime (s : CoordState) (p : PeerID)
    (cfg : HolePuncherConfig) (ddo : DirectDialOracle)
    (oracles : Nat → IterOracle) (hclosed : s.closed = false) :
    (p ∉ s.active →
      (beginDirectConnect s p).1 = none ∧
      p ∈ (beginDirectConnect s p).2.active ∧
      (beginDirectConnect (beginDirectConnect s p).2 p).1 =
        some DCError.alreadyActive ∧
      (beginDirectConnect (beginDirectConnect s p).2 p).2 =
        (beginDirectConnect s p).2 ∧
      (DirectConnect s cfg p ddo oracles).2.1.active = s.active ∧
      p ∉ (DirectConnect s cfg p ddo oracles).2.1.active) ∧
    (p ∈ s.active →
      DirectConnect s cfg p ddo oracles = (some DCError.alreadyActive, s, [])) := by
  constructor
  · intro hmem
    refine ⟨?_, ?_, ?_, ?_, ?_, ?_⟩
    · simp [beginDirectConnect, hclosed, hmem]
    · simp [beginDirectConnect, hclosed, hmem]
    · simp [beginDirectConnect, hclosed, hmem]
    · simp [beginDirectConnect, hclosed, hmem]
    · simp [DirectConnect, beginDirectConnect, hclosed, hmem]
      exact fun a ha heq => hmem (heq ▸ ha)
    · simp [DirectConnect, beginDirectConnect, hclosed, hmem]
  · intro hmem
    simp [DirectConnect, beginDirectConnect, hclosed, hmem]

/-- Witness for C1 at a concrete empty coordinator state. -/
theorem activeAttempts_exact_lifetime_witness :
    (DirectConnect ⟨false, []⟩ cfgA "p1" noDirectDial oraclesAllFail).2.1.active
      = ([] : List PeerID) ∧
    "p1" ∉ (DirectConnect ⟨false, []⟩ cfgA "p1" noDirectDial oraclesAllFail).2.1.active :=
  ⟨((activeAttempts_exact_lifetime ⟨false, []⟩ "p1" cfgA noDirectDial
      oraclesAllFail rfl).1 (by simp)).2.2.2.2.1,
   ((activeAttempts_exact_lifetime ⟨false, []⟩ "p1" cfgA noDirectDial
      oraclesAllFail rfl).1 (by simp)).2.2.2.2.2⟩

/-- C10: a `DirectConnect p` call rejected at admission leaves the active
set untouched: when the coordinator is closed the `ErrClosed` result takes
precedence, is independent of the active set's contents (even with an
attempt to `p` active) and modifies nothing; a duplicate rejected with
`ErrHolePunchActive` likewise returns the state unchanged. -/
theorem rejected_admission_preserves_active (s : CoordState) (p : PeerID)
    (cfg : HolePuncherConfig) (ddo : DirectDialOracle)
    (oracles : Nat → IterOracle) :
    (s.closed = true →
      DirectConnect s cfg p ddo oracles = (some DCError.closed, s, []) ∧
      (∀ a2 : List PeerID,
        beginDirectConnect ⟨s.closed, a2⟩ p = (some DCError.closed, ⟨s.closed, a2⟩))) ∧
    (s.closed = false → p ∈ s.active →
      DirectConnect s cfg p ddo oracles = (some DCError.alreadyActive, s, [])) := by
  constructor
  · intro hclosed
    constructor
    · simp [DirectConnect, beginDirectConnect, hclosed]
    · intro a2
      simp [beginDirectConnect, hclosed]
  · intro hclosed hmem
    simp [DirectConnect, beginDirectConnect, hclosed, hmem]

/-- Witness for C10 at a closed coordinator with an active attempt to the
same peer. -/
theorem rejected_admission_preserves_active_witness :
    DirectConnect ⟨true, ["p1"]⟩ cfgA "p1" noDirectDial oraclesAllFail =
      (some DCError.closed, ⟨true, ["p1"]⟩, []) ∧
    DirectConnect ⟨false, ["p1"]⟩ cfgA "p1" noDirectDial oraclesAllFail =
      (some DCError.alreadyActive, ⟨false, ["p1"]⟩, []) :=
  ⟨((rejected_admission_preserves_active ⟨true, ["p1"]⟩ "p1" cfgA noDirectDial
      oraclesAllFail).1 rfl).1,
   (rejected_admission_preserves_active ⟨false, ["p1"]⟩ "p1" cfgA noDirectDial
      oraclesAllFail).2 rfl (by simp)⟩

/-- C7: `Close` always returns nil, enters the Closed state and fires the
coordinator-wide cancellation; its return (the exit from
`refCount.Wait()`) is only enabled once every spawned task has finished,
so in any guarded run ending in `closeRet` the spawn and finish counts
agree; and once closed, every new admission fails with `ErrClosed`. -/
theorem close_drains_and_rejects :
    (∀ s : SysState, Close s = (none, ⟨true, true, s.refCount⟩)) ∧
    (∀ (tr : List SysEvent) (s : SysState),
      sysRun initSysState (tr ++ [SysEvent.closeRet]) = some s →
      countEv SysEvent.spawnTask tr = countEv SysEvent.finishTask tr) ∧
    (∀ (cs : CoordState) (p : PeerID), cs.closed = true →
      (beginDirectConnect cs p).1 = some DCError.closed) := by
  refine ⟨fun s => rfl, ?_, ?_⟩
  · intro tr s h
    rw [sysRun_append] at h
    cases h1 : sysRun initSysState tr with
    | none => rw [h1] at h; exact absurd h (by simp)
    | some s1 =>
      rw [h1] at h
      simp only [Option.bind, sysRun] at h
      by_cases hg : sysGuard s1 SysEvent.closeRet = true
      · have hzero : s1.refCount = 0 := by
          have := hg
          simp [sysGuard, Bool.and_eq_true] at this
          exact this.2
        have hinv := sysRun_refCount tr initSysState s1 h1
        simp [initSysState] at hinv
        omega
      · rw [if_neg hg] at h
        exact absurd h (by simp)
  · intro cs p hclosed
    simp [beginDirectConnect, hclosed]

/-- Witness for C7: a task spawned before `Close`, finishing after the
cancellation, lets `closeRet` fire with matching counts. -/
theorem close_drains_and_rejects_witness :
    Close ⟨false, false, 1⟩ = (none, ⟨true, true, 1⟩) ∧
    countEv SysEvent.spawnTask
        [SysEvent.spawnTask, SysEvent.closeCall, SysEvent.finishTask] =
      countEv SysEvent.finishTask
        [SysEvent.spawnTask, SysEvent.closeCall, SysEvent.finishTask] ∧
    (beginDirectConnect ⟨true, ["p1"]⟩ "p1").1 = some DCError.closed :=
  ⟨close_drains_and_rejects.1 ⟨false, false, 1⟩,
   close_drains_and_rejects.2.1
     [SysEvent.spawnTask, SysEvent.closeCall, SysEvent.finishTask]
     ⟨true, true, 0⟩ (by decide),
   close_drains_and_rejects.2.2 ⟨true, ["p1"]⟩ "p1" rfl⟩

/-- C4: the exchange fails with a no-public-address error without sending
SYNC in both cases: (a) when the stripped and filtered local listen
addresses are empty, not even CONNECT is sent; (b) when the stripped and
filtered address set from the remote CONNECT is empty, exactly the
CONNECT message was sent and no SYNC follows. -/
theorem exchange_fails_no_public_address (hp : HolePuncherConfig)
    (o : StreamOracle)
    (hset : o.setServiceErr = none) (hres : o.reserveErr = none) :
    (localCandidates hp o.remotePeer = [] →
      initiateHolePunchImpl hp o = (.error .noLocalPublicAddr, [])) ∧
    (∀ msg : HolePunchMsg,
      localCandidates hp o.remotePeer ≠ [] →
      o.writeConnectErr = none →
      o.readResult = .ok msg →
      msg.msgType = .CONNECT →
      remoteCandidates hp o.remotePeer msg.obsAddrs = [] →
      initiateHolePunchImpl hp o =
        (.error .noRemotePublicAddr,
         [.sentMsg ⟨.CONNECT, localCandidates hp o.remotePeer⟩,
          .readMsg msg,
          .rttStopped (o.recvTime - o.sendTime)])) := by
  constructor
  · intro hloc
    simp [initiateHolePunchImpl, hset, hres, hloc]
  · intro msg hloc hw hr hk hrem
    simp [initiateHolePunchImpl, hset, hres, hloc, hw, hr, hk, hrem]

/-- Witness for C4 at concrete relay-only address sets. -/
theorem exchange_fails_no_public_address_witness :
    initiateHolePunchImpl cfgRelayOnly ⟨none, none, none,
        Except.error "unused", none, 0, 0, "rp"⟩ =
      (.error .noLocalPublicAddr, []) ∧
    initiateHolePunchImpl cfgA ⟨none, none, none,
        Except.ok ⟨MsgType.CONNECT, [relayAddr]⟩, none, 5, 9, "rp"⟩ =
      (.error .noRemotePublicAddr,
       [.sentMsg ⟨MsgType.CONNECT, [pubAddr]⟩,
        .readMsg ⟨MsgType.CONNECT, [relayAddr]⟩,
        .rttStopped 4]) :=
  ⟨(exchange_fails_no_public_address cfgRelayOnly
      ⟨none, none, none, Except.error "unused", none, 0, 0, "rp"⟩
      rfl rfl).1 (by decide),
   (exchange_fails_no_public_address cfgA
      ⟨none, none, none, Except.ok ⟨MsgType.CONNECT, [relayAddr]⟩,
       none, 5, 9, "rp"⟩ rfl rfl).2
     ⟨MsgType.CONNECT, [relayAddr]⟩ (by decide) rfl rfl rfl (by decide)⟩

/-- C5: a successful exchange performs exactly
send CONNECT (with the filtered local addresses), read one message,
stop the RTT clock, check the kind, send SYNC with no payload; the
returned RTT is the time between the CONNECT send and the receipt; and a
reply of any other kind fails the exchange after the RTT was already
stopped (no SYNC sent). -/
theorem exchange_success_sequence (hp : HolePuncherConfig)
    (o : StreamOracle) (msg : HolePunchMsg)
    (hset : o.setServiceErr = none) (hres : o.reserveErr = none)
    (hloc : localCandidates hp o.remotePeer ≠ [])
    (hw : o.writeConnectErr = none) (hr : o.readResult = .ok msg) :
    (msg.msgType = .CONNECT →
      remoteCandidates hp o.remotePeer msg.obsAddrs ≠ [] →
      o.writeSyncErr = none →
      initiateHolePunchImpl hp o =
        (.ok (remoteCandidates hp o.remotePeer msg.obsAddrs,
              localCandidates hp o.remotePeer,
              o.recvTime - o.sendTime),
         [.sentMsg ⟨.CONNECT, localCandidates hp o.remotePeer⟩,
          .readMsg msg,
          .rttStopped (o.recvTime - o.sendTime),
          .sentMsg ⟨.SYNC, []⟩])) ∧
    (msg.msgType ≠ .CONNECT →
      initiateHolePunchImpl hp o =
        (.error (.unexpectedMsgType msg.msgType),
         [.sentMsg ⟨.CONNECT, localCandidates hp o.remotePeer⟩,
          .readMsg msg,
          .rttStopped (o.recvTime - o.sendTime)])) := by
  constructor
  · intro hk hrem hsync
    simp [initiateHolePunchImpl, hset, hres, hloc, hw, hr, hk, hrem, hsync]
  · intro hk
    simp [initiateHolePunchImpl, hset, hres, hloc, hw, hr, hk]

/-- Witness for C5: a concrete successful exchange with RTT 40, and a
concrete SYNC-first reply rejected after the RTT was stopped. -/
theorem exchange_success_sequence_witness :
    initiateHolePunchImpl cfgA ⟨none, none, none,
        Except.ok ⟨MsgType.CONNECT, [pubAddr]⟩, none, 100, 140, "rp"⟩ =
      (.ok ([pubAddr], [pubAddr], 40),
       [.sentMsg ⟨MsgType.CONNECT, [pubAddr]⟩,
        .readMsg ⟨MsgType.CONNECT, [pubAddr]⟩,
        .rttStopped 40,
        .sentMsg ⟨MsgType.SYNC, []⟩]) ∧
    initiateHolePunchImpl cfgA ⟨none, none, none,
        Except.ok ⟨MsgType.SYNC, [pubAddr]⟩, none, 5, 9, "rp"⟩ =
      (.error (.unexpectedMsgType MsgType.SYNC),
       [.sentMsg ⟨MsgType.CONNECT, [pubAddr]⟩,
        .readMsg ⟨MsgType.SYNC, [pubAddr]⟩,
        .rttStopped 4]) :=
  ⟨(exchange_success_sequence cfgA
      ⟨none, none, none, Except.ok ⟨MsgType.CONNECT, [pubAddr]⟩,
       none, 100, 140, "rp"⟩ ⟨MsgType.CONNECT, [pubAddr]⟩
      rfl rfl (by decide) rfl rfl).1 rfl (by decide) rfl,
   (exchange_success_sequence cfgA
      ⟨none, none, none, Except.ok ⟨MsgType.SYNC, [pubAddr]⟩,
       none, 5, 9, "rp"⟩ ⟨MsgType.SYNC, [pubAddr]⟩
      rfl rfl (by decide) rfl rfl).2 (by decide)⟩

/-- C2: if iteration `i`'s rendezvous exchange fails, the retry loop stops
at iteration `i` with that error (the exchanges started are exactly
`1 .. i`), and an admitted `DirectConnect` that reaches the loop returns
that error. -/
theorem retry_loop_aborts_on_exchange_error (cfg : HolePuncherConfig)
    (rp : PeerID) (oracles : Nat → IterOracle) (i : Nat)
    (hi1 : 1 ≤ i) (hi3 : i ≤ maxRetries) (e : ExchError)
    (he : (oracles i).exchange = .error e)
    (hpre : ∀ j, 1 ≤ j → j < i →
      (∃ a b r, (oracles j).exchange = Except.ok (a, b, r)) ∧
      (oracles j).ctxDoneDuringSleep = false ∧
      (∃ ce, (oracles j).connectErr = some ce)) :
    (holePunchLoop cfg rp oracles).1 = some (DCError.exchange e) ∧
    exchangeAttemptsOf (holePunchLoop cfg rp oracles).2 = List.range' 1 i ∧
    (DirectConnect ⟨false, []⟩ cfg rp noDirectDial oracles).1 =
      some (DCError.exchange e) := by
  have hbridge : (DirectConnect ⟨false, []⟩ cfg rp noDirectDial oracles).1 =
      (holePunchLoop cfg rp oracles).1 := by
    rw [DirectConnect_admitted_result ⟨false, []⟩ cfg rp noDirectDial oracles
          rfl (by simp), directConnect_noDial]
  have hi3' : i ≤ 3 := hi3
  interval_cases i
  · have hfull : holePunchLoop cfg rp oracles =
        (some (DCError.exchange e),
         [.exchangeAttempt 1, .protocolError e]) := by
      show runIters cfg rp oracles [1, 2, maxRetries] = _
      rw [runIters_exchange_error cfg rp oracles 1 [2, maxRetries] e he]
    refine ⟨by rw [hfull], by rw [hfull]; rfl, by rw [hbridge, hfull]⟩
  · obtain ⟨⟨a1, b1, r1, hx1⟩, hc1, ⟨ce1, hce1⟩⟩ := hpre 1 (by omega) (by omega)
    have hfull : holePunchLoop cfg rp oracles =
        (some (DCError.exchange e),
         [.exchangeAttempt 1, .sleep (r1 / 2), .startHolePunch a1 r1,
          .holePunchAttempt rp,
          .connect (if cfg.legacyBehavior then false else true),
          .endHolePunch (some ce1),
          .exchangeAttempt 2, .protocolError e]) := by
      show runIters cfg rp oracles [1, 2, maxRetries] = _
      rw [runIters_connect_fail_mid cfg rp oracles 1 [2, maxRetries]
            a1 b1 r1 ce1 hx1 hc1 hce1 (by decide),
          runIters_exchange_error cfg rp oracles 2 [maxRetries] e he]
      rfl
    refine ⟨by rw [hfull], by rw [hfull]; rfl, by rw [hbridge, hfull]⟩
  · obtain ⟨⟨a1, b1, r1, hx1⟩, hc1, ⟨ce1, hce1⟩⟩ := hpre 1 (by omega) (by omega)
    obtain ⟨⟨a2, b2, r2, hx2⟩, hc2, ⟨ce2, hce2⟩⟩ := hpre 2 (by omega) (by omega)
    have hfull : holePunchLoop cfg rp oracles =
        (some (DCError.exchange e),
         [.exchangeAttempt 1, .sleep (r1 / 2), .startHolePunch a1 r1,
          .holePunchAttempt rp,
          .connect (if cfg.legacyBehavior then false else true),
          .endHolePunch (some ce1),
          .exchangeAttempt 2, .sleep (r2 / 2), .startHolePunch a2 r2,
          .holePunchAttempt rp,
          .connect (if cfg.legacyBehavior then false else true),
          .endHolePunch (some ce2),
          .exchangeAttempt maxRetries, .protocolError e]) := by
      show runIters cfg rp oracles [1, 2, maxRetries] = _
      rw [runIters_connect_fail_mid cfg rp oracles 1 [2, maxRetries]
            a1 b1 r1 ce1 hx1 hc1 hce1 (by decide),
          runIters_connect_fail_mid cfg rp oracles 2 [maxRetries]
            a2 b2 r2 ce2 hx2 hc2 hce2 (by decide),
          runIters_exchange_error cfg rp oracles maxRetries [] e he]
      rfl
    refine ⟨by rw [hfull], by rw [hfull]; rfl, by rw [hbridge, hfull]⟩

/-- Witness for C2 with a concrete exchange failure on iteration 2. -/
theorem retry_loop_aborts_on_exchange_error_witness :
    (holePunchLoop cfgA "p1" oraclesErrAt2).1 =
      some (DCError.exchange (ExchError.readFailed "stream reset")) ∧
    exchangeAttemptsOf (holePunchLoop cfgA "p1" oraclesErrAt2).2 =
      List.range' 1 2 ∧
    (DirectConnect ⟨false, []⟩ cfgA "p1" noDirectDial oraclesErrAt2).1 =
      some (DCError.exchange (ExchError.readFailed "stream reset")) :=
  retry_loop_aborts_on_exchange_error cfgA "p1" oraclesErrAt2 2
    (by decide) (by decide) (ExchError.readFailed "stream reset") rfl
    (fun j h1 h2 => by
      have hj : j = 1 := by omega
      subst hj
      exact ⟨⟨[pubAddr], [pubAddr], 10, rfl⟩, rfl, ⟨"dial timeout", rfl⟩⟩)

/-- Counterexample for C3 as stated: after three failed iterations the
returned aggregate error names the peer but its text contains no digit
`3` — the retry count is not part of the returned error. -/
theorem aggregate_error_lacks_retry_count :
    (holePunchLoop cfgA "pA" oraclesAllFail).1 =
      some (DCError.allRetriesFailed
        "all retries for hole punch with peer pA failed") ∧
    exchangeAttemptsOf (holePunchLoop cfgA "pA" oraclesAllFail).2 =
      [1, 2, 3] ∧
    ("all retries for hole punch with peer pA failed".data.contains '3')
      = false := by
  refine ⟨by decide, by decide, by decide⟩

/-- C3 (amended): three successful exchanges with three failed connects
end the loop after exactly the iterations 1, 2, 3 with the aggregate
error naming the peer (but not the count), the tracer recording a
finished event with attempt count `maxRetries`, and an admitted
`DirectConnect` returning that aggregate error. -/
theorem aggregate_failure_after_three_iterations (cfg : HolePuncherConfig)
    (rp : PeerID) (oracles : Nat → IterOracle)
    (hall : ∀ j, 1 ≤ j → j ≤ maxRetries →
      (∃ a b r, (oracles j).exchange = Except.ok (a, b, r)) ∧
      (oracles j).ctxDoneDuringSleep = false ∧
      (∃ ce, (oracles j).connectErr = some ce)) :
    (holePunchLoop cfg rp oracles).1 =
      some (DCError.allRetriesFailed (allRetriesFailedMsg rp)) ∧
    exchangeAttemptsOf (holePunchLoop cfg rp oracles).2 = [1, 2, 3] ∧
    (∃ a b, LoopEvent.finished "initiator" maxRetries a b false ∈
      (holePunchLoop cfg rp oracles).2) ∧
    (DirectConnect ⟨false, []⟩ cfg rp noDirectDial oracles).1 =
      some (DCError.allRetriesFailed (allRetriesFailedMsg rp)) := by
  have hbridge : (DirectConnect ⟨false, []⟩ cfg rp noDirectDial oracles).1 =
      (holePunchLoop cfg rp oracles).1 := by
    rw [DirectConnect_admitted_result ⟨false, []⟩ cfg rp noDirectDial oracles
          rfl (by simp), directConnect_noDial]
  obtain ⟨⟨a1, b1, r1, hx1⟩, hc1, ⟨ce1, hce1⟩⟩ := hall 1 (by decide) (by decide)
  obtain ⟨⟨a2, b2, r2, hx2⟩, hc2, ⟨ce2, hce2⟩⟩ := hall 2 (by decide) (by decide)
  obtain ⟨⟨a3, b3, r3, hx3⟩, hc3, ⟨ce3, hce3⟩⟩ := hall 3 (by decide) (by decide)
  have hfull : holePunchLoop cfg rp oracles =
      (some (DCError.allRetriesFailed (allRetriesFailedMsg rp)),
       [.exchangeAttempt 1, .sleep (r1 / 2), .startHolePunch a1 r1,
        .holePunchAttempt rp,
        .connect (if cfg.legacyBehavior then false else true),
        .endHolePunch (some ce1),
        .exchangeAttempt 2, .sleep (r2 / 2), .startHolePunch a2 r2,
        .holePunchAttempt rp,
        .connect (if cfg.legacyBehavior then false else true),
        .endHolePunch (some ce2),
        .exchangeAttempt maxRetries, .sleep (r3 / 2), .startHolePunch a3 r3,
        .holePunchAttempt rp,
        .connect (if cfg.legacyBehavior then false else true),
        .endHolePunch (some ce3),
        .finished "initiator" maxRetries a3 b3 false]) := by
    show runIters cfg rp oracles [1, 2, maxRetries] = _
    rw [runIters_connect_fail_mid cfg rp oracles 1 [2, maxRetries]
          a1 b1 r1 ce1 hx1 hc1 hce1 (by decide),
        runIters_connect_fail_mid cfg rp oracles 2 [maxRetries]
          a2 b2 r2 ce2 hx2 hc2 hce2 (by decide),
        runIters_connect_fail_last cfg rp oracles [] a3 b3 r3 ce3 hx3 hc3 hce3]
    rfl
  refine ⟨by rw [hfull], by rw [hfull]; rfl,
          ⟨a3, b3, by rw [hfull]; simp⟩, by rw [hbridge, hfull]⟩

/-- Witness for C3's amended theorem at a concrete all-fail run. -/
theorem aggregate_failure_after_three_iterations_witness :
    (holePunchLoop cfgA "pA" oraclesAllFail).1 =
      some (DCError.allRetriesFailed (allRetriesFailedMsg "pA")) ∧
    exchangeAttemptsOf (holePunchLoop cfgA "pA" oraclesAllFail).2 =
      [1, 2, 3] ∧
    (DirectConnect ⟨false, []⟩ cfgA "pA" noDirectDial oraclesAllFail).1 =
      some (DCError.allRetriesFailed (allRetriesFailedMsg "pA")) :=
  have h := aggregate_failure_after_three_iterations cfgA "pA" oraclesAllFail
    (fun _ _ _ =>
      ⟨⟨[pubAddr], [pubAddr], 10, rfl⟩, rfl, ⟨"dial timeout", rfl⟩⟩)
  ⟨h.1, h.2.1, h.2.2.2⟩

/-- C6: on an iteration whose exchange succeeds, the pre-connect wait is
half of the RTT measured by that same iteration's own exchange oracle,
and the connect attempt follows the sleep immediately (also when the RTT,
and hence the wait, is zero). -/
theorem preconnect_wait_is_half_fresh_rtt (cfg : HolePuncherConfig)
    (rp : PeerID) (oracles : Nat → IterOracle) (i : Nat) (rest : List Nat)
    (a b : List Addr) (rtt : Nat)
    (hx : (oracles i).exchange = Except.ok (a, b, rtt))
    (hc : (oracles i).ctxDoneDuringSleep = false) :
    ((runIters cfg rp oracles (i :: rest)).2).take 6 =
      [LoopEvent.exchangeAttempt i, LoopEvent.sleep (rtt / 2),
       LoopEvent.startHolePunch a rtt, LoopEvent.holePunchAttempt rp,
       LoopEvent.connect (if cfg.legacyBehavior then false else true),
       LoopEvent.endHolePunch ((oracles i).connectErr)] := by
  obtain ⟨tail, ht⟩ := runIters_shape cfg rp oracles i rest a b rtt hx hc
  rw [ht]
  rfl

/-- Witness for C6 at a concrete zero-RTT iteration: the sleep is zero and
the dial still follows. -/
theorem preconnect_wait_is_half_fresh_rtt_witness :
    ((runIters cfgA "p1" oraclesZeroRtt (1 :: [2, 3])).2).take 6 =
      [LoopEvent.exchangeAttempt 1, LoopEvent.sleep 0,
       LoopEvent.startHolePunch [pubAddr] 0, LoopEvent.holePunchAttempt "p1",
       LoopEvent.connect false, LoopEvent.endHolePunch none] :=
  preconnect_wait_is_half_fresh_rtt cfgA "p1" oraclesZeroRtt 1 [2, 3]
    [pubAddr] [pubAddr] 0 rfl rfl

/-- C8: if the coordinator context is done while an iteration sleeps, the
loop returns the context's cancellation error at once: no connect attempt
is made and no further iteration starts. -/
theorem cancellation_mid_sleep_aborts_loop (cfg : HolePuncherConfig)
    (rp : PeerID) (oracles : Nat → IterOracle) (i : Nat) (rest : List Nat)
    (a b : List Addr) (rtt : Nat)
    (hx : (oracles i).exchange = Except.ok (a, b, rtt))
    (hc : (oracles i).ctxDoneDuringSleep = true) :
    runIters cfg rp oracles (i :: rest) =
      (some DCError.ctxCancelled, [LoopEvent.exchangeAttempt i]) :=
  runIters_cancelled cfg rp oracles i rest a b rtt hx hc

/-- Witness for C8 with a concrete cancellation on iteration 1. -/
theorem cancellation_mid_sleep_aborts_loop_witness :
    runIters cfgA "p1" oraclesCancelled (1 :: [2, 3]) =
      (some DCError.ctxCancelled, [LoopEvent.exchangeAttempt 1]) :=
  cancellation_mid_sleep_aborts_loop cfgA "p1" oraclesCancelled 1 [2, 3]
    [pubAddr] [pubAddr] 10 rfl rfl

/-- C9: `newHolePuncher` defaults the legacy-role flag to true, and the
connect attempt of every iteration that reaches it uses the role derived
from the flag at attempt time: the legacy inverted role
(`isClient = false`) when the flag is true, and `isClient = true` when it
is false. -/
theorem legacy_role_flag_controls_connect (la : List Addr)
    (f : Option AddrFilter) :
    (newHolePuncher la f).legacyBehavior = true ∧
    (∀ (cfg : HolePuncherConfig) (rp : PeerID) (oracles : Nat → IterOracle)
       (i : Nat) (rest : List Nat) (a b : List Addr) (rtt : Nat),
      (oracles i).exchange = Except.ok (a, b, rtt) →
      (oracles i).ctxDoneDuringSleep = false →
      (cfg.legacyBehavior = true →
        LoopEvent.connect false ∈ (runIters cfg rp oracles (i :: rest)).2) ∧
      (cfg.legacyBehavior = false →
        LoopEvent.connect true ∈ (runIters cfg rp oracles (i :: rest)).2)) := by
  refine ⟨rfl, ?_⟩
  intro cfg rp oracles i rest a b rtt hx hc
  obtain ⟨tail, ht⟩ := runIters_shape cfg rp oracles i rest a b rtt hx hc
  constructor
  · intro hl
    rw [ht]
    simp [hl]
  · intro hl
    rw [ht]
    simp [hl]

/-- Witness for C9: the constructor's default, a legacy run connecting
with `isClient = false`, and a non-legacy run connecting with
`isClient = true`. -/
theorem legacy_role_flag_controls_connect_witness :
    (newHolePuncher [] none).legacyBehavior = true ∧
    LoopEvent.connect false ∈
      (runIters cfgA "p1" oraclesAllFail (1 :: [2, 3])).2 ∧
    LoopEvent.connect true ∈
      (runIters cfgNonLegacy "p1" oraclesAllFail (1 :: [2, 3])).2 :=
  ⟨(legacy_role_flag_controls_connect [] none).1,
   ((legacy_role_flag_controls_connect [] none).2 cfgA "p1" oraclesAllFail
      1 [2, 3] [pubAddr] [pubAddr] 10 rfl rfl).1 rfl,
   ((legacy_role_flag_controls_connect [] none).2 cfgNonLegacy "p1"
      oraclesAllFail 1 [2, 3] [pubAddr] [pubAddr] 10 rfl rfl).2 rfl⟩

end Holepunch
